import Mathlib

/-!
Shallow embedding of the attribute-schema and variant-combination core of
`src/actions/product-attributes.ts` (storefront-tools).

Modelling conventions:
* A JavaScript `Record<string, T>` is embedded as an association list
  `List (String × T)` in the record's key iteration order (records never
  contain a duplicate key).
* Machine numbers (`id`, `product_id`, `created_at` timestamps) are `Nat`;
  `sort_order` is `Int`.
* The relational store reached through the query client is a `Store` value:
  lists of rows per table, counters supplying the next row id / creation
  timestamp, and a `failure` field: `some e` means every store call fails
  with message `e` (the fault-injection channel used to state the
  degrade-on-failure behaviour).
* `.single()` yields a row only when exactly one row matches, an error
  otherwise; destructuring that drops the error (`const { data } = ...`)
  is `Except.toOption`.
* Each server action's `try/catch` is normalised: every `throw` inside the
  try block is written as the `{ success: false, error }` envelope it is
  converted to by the surrounding catch.  The envelope is `Result α`.
* Variant `attributes` JSON is embedded at the type the code reads it at:
  `none` for JSON `null`, `some m` for an object `m`.
-/

/-- One `{value, label}` entry of an attribute's `options` array. -/
structure AttrOption where
  value : String
  label : String
deriving DecidableEq, Repr

/-- Row of `product_attribute_schemas` (columns this module touches). -/
structure AttributeSchema where
  id : Nat
  product_id : Nat
  attribute_key : String
  attribute_label : String
  attribute_type : String
  options : List AttrOption
  default_value : Option String
  is_required : Bool
  is_variant_defining : Bool
  validation_rules : List (String × String)
  help_text : Option String
  sort_order : Int
  created_at : Nat
deriving DecidableEq, Repr

/-- Row of `product_variants` (columns this module touches).
`attributes` is the JSON attribute-value map: `none` embeds JSON `null`. -/
structure ProductVariant where
  id : Nat
  product_id : Nat
  attributes : Option (List (String × String))
deriving DecidableEq, Repr

/-- Row of `brands` (columns this module touches). -/
structure Brand where
  id : Nat
  user_id : String
deriving DecidableEq, Repr

/-- Row of `product_catalogs` (columns this module touches);
`products.catalog_id` references the string column `catalog_id`. -/
structure ProductCatalog where
  id : Nat
  catalog_id : String
  brand_id : Nat
deriving DecidableEq, Repr

/-- Row of `products` (columns this module touches). -/
structure Product where
  id : Nat
  catalog_id : String
deriving DecidableEq, Repr

/-- The opaque relational store: table contents, id/timestamp supply for
inserted rows, and the fault-injection flag for store-call failures. -/
structure Store where
  brands : List Brand
  catalogs : List ProductCatalog
  products : List Product
  schemas : List AttributeSchema
  variants : List ProductVariant
  nextId : Nat
  nextTime : Nat
  failure : Option String
deriving DecidableEq, Repr

/-- The uniform envelope `{success:true, data} / {success:false, error}`. -/
inductive Result (α : Type) where
  | ok (data : α) : Result α
  | err (error : String) : Result α
deriving DecidableEq, Repr

/-- `success` field of the envelope. -/
def Result.isOk {α : Type} : Result α → Bool
  | .ok _ => true
  | .err _ => false

/-- A read returning the matching rows; fails when the store fails. -/
def dbSelect {α : Type} (st : Store) (rows : List α) : Except String (List α) :=
  match st.failure with
  | some e => .error e
  | none => .ok rows

/-- A read finished by `.single()`: errors unless exactly one row matches
(and on store failure). -/
def dbSingle {α : Type} (st : Store) (rows : List α) : Except String α :=
  match st.failure with
  | some e => .error e
  | none =>
    match rows with
    | [x] => .ok x
    | _ => .error "JSON object requested, multiple (or no) rows returned"

/-! ## Combination Generator (`generateVariantCombinations`) -/

/-- The inner recursive closure `generateCombination(currentCombination, depth)`:
the keys not yet assigned are passed positionally (the `keys` array from
index `depth` on, each paired with `attributes[key]`), and `current` is the
accumulated combination object.  The source returns early on a falsy key
(`if (!currentKey) return`), i.e. on the empty-string key, emitting nothing
from that branch. -/
def generateCombination :
    List (String × List String) → List (String × String) → List (List (String × String))
  | [], current => [current]
  | (k, values) :: rest, current =>
    if k = "" then []
    else values.flatMap fun v => generateCombination rest (current ++ [(k, v)])

/-- `generateVariantCombinations(attributes)`: the full recursion started at
depth 0 with the empty combination.  The record argument is embedded as an
association list in key iteration order. -/
def generateVariantCombinations
    (attributes : List (String × List String)) : List (List (String × String)) :=
  generateCombination attributes []

/-- Number of combinations the spec predicts: product of value-list sizes. -/
def prodSizes (attributes : List (String × List String)) : Nat :=
  (attributes.map fun p => p.2.length).prod

/-- The combination the lexicographic-order contract places at index `t`
(0-based): the head key takes value index `t / prodSizes rest`, and the tail
enumerates index `t % prodSizes rest`; hence the last key varies fastest. -/
def lexCombo : List (String × List String) → Nat → List (String × String)
  | [], _ => []
  | (k, values) :: rest, t =>
    (k, values.getD (t / prodSizes rest) "") :: lexCombo rest (t % prodSizes rest)

/-- Boolean test that `c` is a total assignment for `attributes`: one entry
per key, in key order, each value drawn from that key's value list. -/
def isTotalAssign : List (String × List String) → List (String × String) → Bool
  | [], c => c.isEmpty
  | (k, values) :: rest, c =>
    match c with
    | [] => false
    | (k', v) :: c' => k' == k && values.contains v && isTotalAssign rest c'

/-- Accumulator-free restatement of the generator used in proofs (no
empty-key guard; connected to the source function under the hypothesis that
no key is the empty string). -/
def cartesianCombos : List (String × List String) → List (List (String × String))
  | [] => [[]]
  | (k, values) :: rest =>
    values.flatMap fun v => (cartesianCombos rest).map fun c => (k, v) :: c

theorem generateCombination_eq_cartesian
    (attrs : List (String × List String)) (h : ∀ p ∈ attrs, p.1 ≠ "") :
    ∀ current, generateCombination attrs current
      = (cartesianCombos attrs).map fun c => current ++ c := by
  induction attrs with
  | nil => intro current; simp [generateCombination, cartesianCombos]
  | cons p rest ih =>
    intro current
    obtain ⟨k, values⟩ := p
    have hk : k ≠ "" := h (k, values) (by simp)
    have hrest : ∀ p ∈ rest, p.1 ≠ "" := fun p hp => h p (by simp [hp])
    simp only [generateCombination, cartesianCombos, if_neg hk]
    simp only [List.map_flatMap, List.map_map]
    refine List.flatMap_congr ?_
    intro v _
    rw [ih hrest (current ++ [(k, v)])]
    simp [Function.comp]

theorem generateVariantCombinations_eq_cartesian
    (attrs : List (String × List String)) (h : ∀ p ∈ attrs, p.1 ≠ "") :
    generateVariantCombinations attrs = cartesianCombos attrs := by
  rw [generateVariantCombinations, generateCombination_eq_cartesian attrs h []]
  simp

theorem length_cartesianCombos (attrs : List (String × List String)) :
    (cartesianCombos attrs).length = prodSizes attrs := by
  induction attrs with
  | nil => simp [cartesianCombos, prodSizes]
  | cons p rest ih =>
    obtain ⟨k, values⟩ := p
    simp only [cartesianCombos, prodSizes, List.length_flatMap, List.map_map]
    have hconst :
        (List.map (List.length ∘ fun v => (cartesianCombos rest).map fun c => (k, v) :: c) values)
          = List.map (fun _ => prodSizes rest) values := by
      refine List.map_congr_left ?_
      intro v _
      simp [Function.comp, ih]
    rw [hconst]
    simp [List.map_const', List.sum_replicate, prodSizes, Nat.mul_comm, smul_eq_mul]

theorem get?_flatMap_of_const_length {α β : Type} (f : α → List β) (w : Nat) :
    ∀ (l : List α) (t : Nat) (a : α), (∀ x ∈ l, (f x).length = w) →
      l.get? (t / w) = some a → t % w < w →
      (l.flatMap f).get? t = (f a).get? (t % w) := by
  intro l
  induction l with
  | nil => intro t a _ h _; simp at h
  | cons x xs ih =>
    intro t a hw hget hmod
    have hwpos : 0 < w := Nat.lt_of_le_of_lt (Nat.zero_le _) hmod
    have hfx : (f x).length = w := hw x (by simp)
    by_cases ht : t < w
    · have hdiv : t / w = 0 := Nat.div_eq_of_lt ht
      rw [hdiv] at hget
      simp only [List.get?_cons_zero, Option.some.injEq] at hget
      subst hget
      rw [List.flatMap_cons, List.get?_append (by rw [hfx]; exact ht),
        Nat.mod_eq_of_lt ht]
    · push_neg at ht
      have hdiv : t / w = (t - w) / w + 1 := by
        conv_lhs => rw [← Nat.sub_add_cancel ht]
        rw [Nat.add_div_right _ hwpos]
      rw [hdiv, List.get?_cons_succ] at hget
      have hmod' : t % w = (t - w) % w := Nat.mod_eq_sub_mod ht
      rw [List.flatMap_cons, List.get?_append_right (by rw [hfx]; exact ht), hfx,
        hmod']
      exact ih (t - w) a (fun y hy => hw y (by simp [hy])) hget (hmod' ▸ hmod)

theorem get?_cartesianCombos :
    ∀ (attrs : List (String × List String)) (t : Nat), t < prodSizes attrs →
      (cartesianCombos attrs).get? t = some (lexCombo attrs t) := by
  intro attrs
  induction attrs with
  | nil =>
    intro t ht
    simp only [prodSizes, List.map_nil, List.prod_nil] at ht
    have ht0 : t = 0 := Nat.lt_one_iff.mp ht
    subst ht0
    simp [cartesianCombos, lexCombo]
  | cons p rest ih =>
    obtain ⟨k, values⟩ := p
    intro t ht
    have hprod : prodSizes ((k, values) :: rest) = values.length * prodSizes rest := by
      simp [prodSizes]
    rw [hprod] at ht
    have hwpos : 0 < prodSizes rest := by
      rcases Nat.eq_zero_or_pos (prodSizes rest) with h0 | h
      · rw [h0, Nat.mul_zero] at ht; exact absurd ht (Nat.not_lt_zero t)
      · exact h
    have hdivlt : t / prodSizes rest < values.length :=
      (Nat.div_lt_iff_lt_mul hwpos).mpr ht
    have hget : values.get? (t / prodSizes rest)
        = some (values.getD (t / prodSizes rest) "") := by
      rw [List.getD_eq_getElem?_getD, List.get?_eq_getElem?,
        List.getElem?_eq_getElem hdivlt]
      simp
    have happ := get?_flatMap_of_const_length
      (f := fun v => (cartesianCombos rest).map fun c => (k, v) :: c)
      (w := prodSizes rest) values t (values.getD (t / prodSizes rest) "")
      (fun x _ => by simp [length_cartesianCombos])
      hget (Nat.mod_lt t hwpos)
    rw [cartesianCombos, happ, List.get?_map,
      ih (t % prodSizes rest) (Nat.mod_lt t hwpos)]
    simp [lexCombo]

theorem mem_cartesianCombos :
    ∀ (attrs : List (String × List String)) (c : List (String × String)),
      c ∈ cartesianCombos attrs ↔ isTotalAssign attrs c = true := by
  intro attrs
  induction attrs with
  | nil =>
    intro c
    cases c <;> simp [cartesianCombos, isTotalAssign]
  | cons p rest ih =>
    obtain ⟨k, values⟩ := p
    intro c
    simp only [cartesianCombos, List.mem_flatMap, List.mem_map]
    constructor
    · rintro ⟨v, hv, c', hc', rfl⟩
      have hcont : values.contains v = true := List.elem_iff.mpr hv
      simp [isTotalAssign, hv, hcont, (ih c').mp hc']
    · intro h
      cases c with
      | nil => simp [isTotalAssign] at h
      | cons hd c' =>
        obtain ⟨k', v⟩ := hd
        simp only [isTotalAssign, Bool.and_eq_true, beq_iff_eq] at h
        obtain ⟨⟨hk, hvmem⟩, hrest⟩ := h
        exact ⟨v, List.elem_iff.mp hvmem, c', (ih c').mpr hrest, by rw [hk]⟩

theorem nodup_cartesianCombos :
    ∀ (attrs : List (String × List String)), (∀ p ∈ attrs, p.2.Nodup) →
      (cartesianCombos attrs).Nodup := by
  intro attrs
  induction attrs with
  | nil => intro _; simp [cartesianCombos]
  | cons p rest ih =>
    intro hv
    obtain ⟨k, values⟩ := p
    have hvals : values.Nodup := hv (k, values) (by simp)
    have hrest : (cartesianCombos rest).Nodup := ih fun p hp => hv p (by simp [hp])
    rw [cartesianCombos, List.nodup_flatMap]
    constructor
    · intro v _
      exact hrest.map fun a b hab => by injection hab
    · refine hvals.imp ?_
      intro v v' hne
      intro x hx hx'
      simp only [List.mem_map] at hx hx'
      obtain ⟨c, _, rfl⟩ := hx
      obtain ⟨c', _, heq⟩ := hx'
      injection heq with h1 _
      injection h1 with _ h2
      exact hne h2.symm

theorem keys_of_mem_generateCombination :
    ∀ (attrs : List (String × List String)) (current c : List (String × String)),
      c ∈ generateCombination attrs current →
      c.map Prod.fst = current.map Prod.fst ++ attrs.map Prod.fst := by
  intro attrs
  induction attrs with
  | nil =>
    intro current c hc
    simp only [generateCombination, List.mem_singleton] at hc
    simp [hc]
  | cons p rest ih =>
    intro current c hc
    obtain ⟨k, values⟩ := p
    by_cases hk : k = ""
    · simp [generateCombination, hk] at hc
    · simp only [generateCombination, if_neg hk, List.mem_flatMap] at hc
      obtain ⟨v, _, hmem⟩ := hc
      have := ih (current ++ [(k, v)]) c hmem
      simpa using this

theorem count_one_of_nodup_mem {α : Type} [BEq α] [LawfulBEq α]
    (l : List α) (a : α) (h : l.Nodup) (hm : a ∈ l) : l.count a = 1 := by
  induction l with
  | nil => simp at hm
  | cons x xs ih =>
    rw [List.count_cons]
    rcases List.mem_cons.mp hm with rfl | hmem
    · have hx : a ∉ xs := (List.nodup_cons.mp h).1
      simp [List.count_eq_zero.mpr hx]
    · have hne : x ≠ a := by rintro rfl; exact (List.nodup_cons.mp h).1 hmem
      simp [ih (List.nodup_cons.mp h).2 hmem, hne]

/-- The worked example from the spec:
`{color: [red, blue], size: [S, M, L]}` in iteration order. -/
def exampleAttrs : List (String × List String) :=
  [("color", ["red", "blue"]), ("size", ["S", "M", "L"])]

/-- C1 (counterexample): the lexicographic-enumeration contract fails as
stated for the mapping `{"": [a, b]}`: the supplied orders place the
combination assigning `a` to the empty key at index 0 (the product of sizes
is 2), but `generateVariantCombinations` returns early on a falsy key and
emits nothing at all. -/
theorem generateVariantCombinations_lex_order_cex :
    0 < prodSizes [("", ["a", "b"])]
    ∧ lexCombo [("", ["a", "b"])] 0 = [("", "a")]
    ∧ (generateVariantCombinations [("", ["a", "b"])]).get? 0 ≠
        some (lexCombo [("", ["a", "b"])] 0) := by
  refine ⟨by decide, by decide, ?_⟩
  decide

/-- C1 (amended): for every mapping all of whose keys are non-empty
strings, the `t`-th emitted combination (for `t` below the product of the
value-sequence sizes) is the `t`-th combination in lexicographic order with
respect to the supplied key order and, per key, the supplied value order,
the last key varying fastest (`lexCombo`); and on the spec's example the
output is exactly the six pairs in the stated order. -/
theorem generateVariantCombinations_lex_order :
    (∀ (attrs : List (String × List String)), (∀ p ∈ attrs, p.1 ≠ "") →
      ∀ t, t < prodSizes attrs →
        (generateVariantCombinations attrs).get? t = some (lexCombo attrs t))
    ∧ generateVariantCombinations exampleAttrs =
        [[("color", "red"), ("size", "S")], [("color", "red"), ("size", "M")],
         [("color", "red"), ("size", "L")], [("color", "blue"), ("size", "S")],
         [("color", "blue"), ("size", "M")], [("color", "blue"), ("size", "L")]] := by
  constructor
  · intro attrs h t ht
    rw [generateVariantCombinations_eq_cartesian attrs h]
    exact get?_cartesianCombos attrs t ht
  · decide

/-- C1 (witness): the general part of the theorem instantiated at the
spec's example and index 4, whose combination is `(blue, M)`. -/
theorem generateVariantCombinations_lex_order_witness :
    (generateVariantCombinations exampleAttrs).get? 4 =
      some (lexCombo exampleAttrs 4) :=
  generateVariantCombinations_lex_order.1 exampleAttrs (by decide) 4 (by decide)

/-- C2 (counterexample): as stated over every input mapping the claim
fails twice over.  With `{k: [a, a]}` the assignment `k ↦ a` is emitted
twice, not exactly once; with `{"": [a, b]}` the value sequences have sizes
with product 2, yet zero combinations are emitted (falsy-key early
return). -/
theorem generateVariantCombinations_count_cex :
    ((generateVariantCombinations [("k", ["a", "a"])]).count [("k", "a")] = 2
      ∧ isTotalAssign [("k", ["a", "a"])] [("k", "a")] = true)
    ∧ (generateVariantCombinations [("", ["a", "b"])]).length = 0
    ∧ prodSizes [("", ["a", "b"])] = 2 := by
  decide

/-- C2 (amended): for every mapping whose keys are non-empty, the number
of combinations equals the product of the value-sequence sizes, every
emitted combination is a total assignment of one supplied value per key,
and — when additionally each key's value sequence is duplicate-free —
every total assignment occurs exactly once; the empty mapping yields
exactly the empty assignment, and a mapping with an empty value sequence
yields no combinations. -/
theorem generateVariantCombinations_product_count
    (attrs : List (String × List String))
    (hkeys : ∀ p ∈ attrs, p.1 ≠ "") :
    (generateVariantCombinations attrs).length = prodSizes attrs
    ∧ (∀ c ∈ generateVariantCombinations attrs, isTotalAssign attrs c = true)
    ∧ ((∀ p ∈ attrs, p.2.Nodup) →
        ∀ c, isTotalAssign attrs c = true →
          (generateVariantCombinations attrs).count c = 1)
    ∧ generateVariantCombinations [] = [[]]
    ∧ (∀ k, (k, ([] : List String)) ∈ attrs →
        generateVariantCombinations attrs = []) := by
  rw [generateVariantCombinations_eq_cartesian attrs hkeys]
  refine ⟨length_cartesianCombos attrs, ?_, ?_, rfl, ?_⟩
  · intro c hc
    exact (mem_cartesianCombos attrs c).mp hc
  · intro hv c hc
    exact count_one_of_nodup_mem (cartesianCombos attrs) c
      (nodup_cartesianCombos attrs hv) ((mem_cartesianCombos attrs c).mpr hc)
  · intro k hk
    have hzero : prodSizes attrs = 0 := by
      have : (0 : Nat) ∈ attrs.map fun p => p.2.length := by
        exact List.mem_map.mpr ⟨(k, []), hk, rfl⟩
      simpa [prodSizes] using List.prod_eq_zero this
    have hlen := length_cartesianCombos attrs
    rw [hzero] at hlen
    exact List.length_eq_zero.mp hlen

/-- C2 (witness): the amended theorem at the spec's example: 6 = 2 · 3
combinations and the assignment `(red, M)` occurs exactly once. -/
theorem generateVariantCombinations_product_count_witness :
    (generateVariantCombinations exampleAttrs).length = prodSizes exampleAttrs
    ∧ (generateVariantCombinations exampleAttrs).count
        [("color", "red"), ("size", "M")] = 1 :=
  ⟨(generateVariantCombinations_product_count exampleAttrs (by decide)).1,
   (generateVariantCombinations_product_count exampleAttrs (by decide)).2.2.1
     (by decide) [("color", "red"), ("size", "M")] (by decide)⟩

/-! ## Attribute Schema Manager (`product-attributes.ts` server actions) -/

/-- `!user || owning_user_id !== user.id` (the Unauthorized guard).
`u` is the authenticated session: `none` when `auth.getUser()` has no user. -/
def authFails (u : Option String) (owner : String) : Bool :=
  match u with
  | none => true
  | some uid => uid != owner

/-- The ownership query of `createProductAttribute` (lines 35–52):
select the product with its catalog and brand joined in, then take
`product?.product_catalogs?.brands?.user_id`; `none` embeds every way the
chain is falsy (no unique product row, broken chain, empty user id, or a
failing store call whose error the destructuring drops). -/
def lookupProductOwner (st : Store) (productId : Nat) : Option String :=
  ((dbSingle st (st.products.filter fun p => p.id == productId)).toOption).bind fun p =>
  (st.catalogs.find? fun c => c.catalog_id == p.catalog_id).bind fun c =>
  (st.brands.find? fun b => b.id == c.brand_id).bind fun b =>
  if b.user_id == "" then none else some b.user_id

/-- The fetch of `updateProductAttribute` / `deleteProductAttribute`
(lines 116–137, 195–216): the schema row by id with the product → catalog
→ brand chain joined in; yields the row, its product, and the owning
user id. -/
def lookupSchemaOwner (st : Store) (attributeId : Nat) :
    Option (AttributeSchema × Product × String) :=
  ((dbSingle st (st.schemas.filter fun s => s.id == attributeId)).toOption).bind fun s =>
  (st.products.find? fun p => p.id == s.product_id).bind fun p =>
  (st.catalogs.find? fun c => c.catalog_id == p.catalog_id).bind fun c =>
  (st.brands.find? fun b => b.id == c.brand_id).bind fun b =>
  if b.user_id == "" then none else some (s, p, b.user_id)

/-- `CreateAttributeData`: the insert payload; optional fields are the ones
the source defaults (`options || []`, `is_required || false`,
`is_variant_defining ?? true`, `validation_rules || {}`, `sort_order || 0`). -/
structure CreateAttributeData where
  product_id : Nat
  attribute_key : String
  attribute_label : String
  attribute_type : String
  options : Option (List AttrOption)
  default_value : Option String
  is_required : Option Bool
  is_variant_defining : Option Bool
  validation_rules : Option (List (String × String))
  help_text : Option String
  sort_order : Option Int
deriving DecidableEq, Repr

/-- The row built by the insert of `createProductAttribute` (lines 74–88);
`id` and `created_at` are store-assigned from the counters. -/
def newSchemaRow (st : Store) (d : CreateAttributeData) : AttributeSchema :=
  { id := st.nextId
    product_id := d.product_id
    attribute_key := d.attribute_key
    attribute_label := d.attribute_label
    attribute_type := d.attribute_type
    options := d.options.getD []
    default_value := d.default_value
    is_required := d.is_required.getD false
    is_variant_defining := d.is_variant_defining.getD true
    validation_rules := d.validation_rules.getD []
    help_text := d.help_text
    sort_order := d.sort_order.getD 0
    created_at := st.nextTime }

/-- `createProductAttribute` (lines 30–106). -/
def createProductAttribute (st : Store) (user : Option String)
    (data : CreateAttributeData) : Result AttributeSchema × Store :=
  match lookupProductOwner st data.product_id with
  | none => (.err "Product not found or access denied", st)
  | some owner =>
    if authFails user owner then (.err "Unauthorized", st)
    else if ((dbSingle st (st.schemas.filter fun s =>
        s.product_id == data.product_id
          && s.attribute_key == data.attribute_key)).toOption).isSome then
      (.err "Attribute key already exists for this product", st)
    else
      match st.failure with
      | some e => (.err e, st)
      | none =>
        let attrRow := newSchemaRow st data
        (.ok attrRow,
          { st with schemas := st.schemas ++ [attrRow],
                    nextId := st.nextId + 1, nextTime := st.nextTime + 1 })

/-- `UpdateAttributeData`: `{ id } & Partial` of the updatable columns.
`none` is an absent field (not sent to the store); the doubly-optional
fields distinguish "absent" from "set to SQL null". -/
structure UpdateAttributeData where
  id : Nat
  product_id : Option Nat
  attribute_key : Option String
  attribute_label : Option String
  attribute_type : Option String
  options : Option (List AttrOption)
  default_value : Option (Option String)
  is_required : Option Bool
  is_variant_defining : Option Bool
  validation_rules : Option (List (String × String))
  help_text : Option (Option String)
  sort_order : Option Int
deriving DecidableEq, Repr

/-- The store-side effect of `.update(updateData)`: supplied columns
overwrite, absent columns keep their value. -/
def applyUpdate (s : AttributeSchema) (d : UpdateAttributeData) : AttributeSchema :=
  { s with
    product_id := d.product_id.getD s.product_id
    attribute_key := d.attribute_key.getD s.attribute_key
    attribute_label := d.attribute_label.getD s.attribute_label
    attribute_type := d.attribute_type.getD s.attribute_type
    options := d.options.getD s.options
    default_value := d.default_value.getD s.default_value
    is_required := d.is_required.getD s.is_required
    is_variant_defining := d.is_variant_defining.getD s.is_variant_defining
    validation_rules := d.validation_rules.getD s.validation_rules
    help_text := d.help_text.getD s.help_text
    sort_order := d.sort_order.getD s.sort_order }

/-- The key-uniqueness re-check of `updateProductAttribute` (lines 146–159):
runs only when a truthy `attribute_key` differing from the current one is
supplied; it filters on `data.product_id!` — when `product_id` is absent
the query matches no row (`eq.undefined`), so no conflict is ever found —
the key `k`, and excludes the row being updated. -/
def keyChangeConflict (st : Store) (s : AttributeSchema)
    (d : UpdateAttributeData) : Bool :=
  match d.attribute_key with
  | none => false
  | some k =>
    if k != "" && k != s.attribute_key then
      match d.product_id with
      | none => false
      | some pid =>
        ((dbSingle st (st.schemas.filter fun x =>
          x.product_id == pid && x.attribute_key == k && x.id != d.id)).toOption).isSome
    else false

/-- `updateProductAttribute` (lines 111–185). -/
def updateProductAttribute (st : Store) (user : Option String)
    (data : UpdateAttributeData) : Result AttributeSchema × Store :=
  match lookupSchemaOwner st data.id with
  | none => (.err "Attribute not found or access denied", st)
  | some (attrRow, _, owner) =>
    if authFails user owner then (.err "Unauthorized", st)
    else if keyChangeConflict st attrRow data then
      (.err "Attribute key already exists for this product", st)
    else
      match st.failure with
      | some e => (.err e, st)
      | none =>
        (.ok (applyUpdate attrRow data),
          { st with schemas := st.schemas.map fun x =>
              if x.id == data.id then applyUpdate x data else x })

/-- The in-use test of `deleteProductAttribute` (lines 231–237): some
fetched variant has a non-null object `attributes` owning the key. -/
def attributeInUse (variants : List ProductVariant) (key : String) : Bool :=
  variants.any fun v =>
    match v.attributes with
    | some m => m.any fun kv => kv.1 == key
    | none => false

/-- `deleteProductAttribute` (lines 190–263).  The variants read drops its
error (`const { data: variantsUsingAttribute }`), so on store failure the
in-use test sees no rows and the subsequent delete call reports the store
error. -/
def deleteProductAttribute (st : Store) (user : Option String)
    (attributeId : Nat) : Result Unit × Store :=
  match lookupSchemaOwner st attributeId with
  | none => (.err "Attribute not found or access denied", st)
  | some (attrRow, product, owner) =>
    if authFails user owner then (.err "Unauthorized", st)
    else
      let variantRows :=
        ((dbSelect st (st.variants.filter fun v =>
          v.product_id == product.id)).toOption).getD []
      if attributeInUse variantRows attrRow.attribute_key then
        (.err "Cannot delete attribute that is used by variants", st)
      else
        match st.failure with
        | some e => (.err e, st)
        | none =>
          (.ok (), { st with schemas :=
            st.schemas.filter fun x => !(x.id == attributeId) })

/-- The lexicographic comparison `ORDER BY sort_order, created_at`
applied by the store for `getProductAttributes` (lines 278–279). -/
def attrLeP (a b : AttributeSchema) : Prop :=
  a.sort_order < b.sort_order
    ∨ (a.sort_order = b.sort_order ∧ a.created_at ≤ b.created_at)

instance : DecidableRel attrLeP := fun a b => by
  unfold attrLeP
  infer_instance

instance : IsTotal AttributeSchema attrLeP :=
  ⟨fun a b => by unfold attrLeP; omega⟩

instance : IsTrans AttributeSchema attrLeP :=
  ⟨fun a b c hab hbc => by
    unfold attrLeP at hab hbc ⊢
    omega⟩

/-- `getProductAttributes` (lines 268–291): the product's schema rows in
store order (`ORDER BY sort_order, created_at`, modelled by a stable sort
under `attrLeP`); the catch converts any store failure into `[]`. -/
def getProductAttributes (st : Store) (productId : Nat) : List AttributeSchema :=
  match dbSelect st
      ((st.schemas.filter fun s => s.product_id == productId).insertionSort attrLeP) with
  | .error _ => []
  | .ok rows => rows

/-- `getProductAttributeById` (lines 296–318): `null` on any error. -/
def getProductAttributeById (st : Store) (attributeId : Nat) :
    Option AttributeSchema :=
  (dbSingle st (st.schemas.filter fun s => s.id == attributeId)).toOption

/-- `updateAttributeOrder` (lines 323–352): per-id `sort_order` updates
fanned out and joined; any failed sub-update makes the whole call fail
(the fold is one linearisation of the concurrent writes; an update whose
id matches no row succeeds vacuously).  The ambient session `_user` is
never consulted: the action has no authorization step. -/
def updateAttributeOrder (st : Store) (_user : Option String)
    (attributeOrders : List (Nat × Int)) : Result Unit × Store :=
  match st.failure with
  | some _ =>
    if attributeOrders.isEmpty then (.ok (), st)
    else (.err "Failed to update attribute order", st)
  | none =>
    (.ok (), { st with schemas :=
      (attributeOrders.foldl
        (fun rows o => rows.map fun s =>
          if s.id == o.1 then { s with sort_order := o.2 } else s)
        st.schemas) })

/-- `addAttributeOption` (lines 357–407).  No authorization step: the
ambient session `_user` is never consulted. -/
def addAttributeOption (st : Store) (_user : Option String)
    (attributeId : Nat) (option : AttrOption) : Result Unit × Store :=
  match dbSingle st (st.schemas.filter fun s => s.id == attributeId) with
  | .error _ => (.err "Attribute not found", st)
  | .ok attrRow =>
    if attrRow.options.any fun existing => existing.value == option.value then
      (.err "Option value already exists", st)
    else
      match st.failure with
      | some e => (.err e, st)
      | none =>
        (.ok (), { st with schemas := st.schemas.map fun x =>
            if x.id == attributeId then { x with options := x.options ++ [option] }
            else x })

/-- The per-variant test of `removeAttributeOption` (lines 443–446):
`attrs && attrs[key] === optionValue`. -/
def optionUsed (v : ProductVariant) (key optionValue : String) : Bool :=
  match v.attributes with
  | none => false
  | some m => m.lookup key == some optionValue

/-- `removeAttributeOption` (lines 412–471): filters out every option
entry with the given value; errors when nothing was removed, or when some
variant of the product uses the value for this key.  No authorization
step: the ambient session `_user` is never consulted. -/
def removeAttributeOption (st : Store) (_user : Option String)
    (attributeId : Nat) (optionValue : String) : Result Unit × Store :=
  match dbSingle st (st.schemas.filter fun s => s.id == attributeId) with
  | .error _ => (.err "Attribute not found", st)
  | .ok attrRow =>
    let updatedOptions := attrRow.options.filter fun o => o.value != optionValue
    if updatedOptions.length == attrRow.options.length then
      (.err "Option not found", st)
    else
      let variantRows :=
        ((dbSelect st (st.variants.filter fun v =>
          v.product_id == attrRow.product_id)).toOption).getD []
      if variantRows.any fun v => optionUsed v attrRow.attribute_key optionValue then
        (.err "Cannot remove option that is used by variants", st)
      else
        match st.failure with
        | some e => (.err e, st)
        | none =>
          (.ok (), { st with schemas := st.schemas.map fun x =>
              if x.id == attributeId then { x with options := updatedOptions }
              else x })

/-- JavaScript object assignment `m[k] = v`: overwrite in place when the
key exists, append otherwise. -/
def recordSet (m : List (String × List String)) (k : String)
    (v : List String) : List (String × List String) :=
  if m.any fun kv => kv.1 == k then
    m.map fun kv => if kv.1 == k then (k, v) else kv
  else m ++ [(k, v)]

/-- `getAttributeCombinations` (lines 476–495): every attribute schema of
the product — variant-defining or not — contributes
`attribute_key ↦ options[].value`. -/
def getAttributeCombinations (st : Store) (productId : Nat) :
    List (String × List String) :=
  (getProductAttributes st productId).foldl
    (fun m attr => recordSet m attr.attribute_key (attr.options.map fun o => o.value))
    []

/-! ## Supporting lemmas for the manager theorems -/

theorem dbSingle_toOption_eq_some_iff {α : Type} (st : Store) (rows : List α)
    (x : α) : (dbSingle st rows).toOption = some x ↔
      st.failure = none ∧ rows = [x] := by
  cases hf : st.failure with
  | some e => simp [dbSingle, hf, Except.toOption]
  | none =>
    rcases rows with _ | ⟨y, _ | ⟨z, zs⟩⟩ <;>
      simp [dbSingle, hf, Except.toOption]

theorem failure_none_of_lookupProductOwner {st : Store} {pid : Nat} {owner : String}
    (h : lookupProductOwner st pid = some owner) : st.failure = none := by
  cases hfail : st.failure with
  | none => rfl
  | some e => simp [lookupProductOwner, dbSingle, hfail, Except.toOption] at h

theorem failure_none_of_lookupSchemaOwner {st : Store} {i : Nat}
    {r : AttributeSchema × Product × String}
    (h : lookupSchemaOwner st i = some r) : st.failure = none := by
  cases hfail : st.failure with
  | none => rfl
  | some e => simp [lookupSchemaOwner, dbSingle, hfail, Except.toOption] at h

theorem authFails_of_not_owner {u : Option String} {owner : String}
    (h : ∀ uid, u = some uid → uid ≠ owner) : authFails u owner = true := by
  cases u with
  | none => rfl
  | some uid =>
    have := h uid rfl
    simp [authFails, this]

theorem authFails_self (owner : String) : authFails (some owner) owner = false := by
  simp [authFails]

theorem attributeInUse_iff (variants : List ProductVariant) (key : String) :
    attributeInUse variants key = true ↔
      ∃ v ∈ variants, ∃ m, v.attributes = some m ∧ key ∈ m.map Prod.fst := by
  rw [attributeInUse, List.any_eq_true]
  constructor
  · rintro ⟨v, hv, hmatch⟩
    rcases hattrs : v.attributes with _ | m
    · rw [hattrs] at hmatch; simp at hmatch
    · rw [hattrs] at hmatch
      rw [List.any_eq_true] at hmatch
      obtain ⟨kv, hkv, hbeq⟩ := hmatch
      exact ⟨v, hv, m, hattrs, List.mem_map.mpr ⟨kv, hkv, eq_of_beq hbeq⟩⟩
  · rintro ⟨v, hv, m, hm, hkey⟩
    refine ⟨v, hv, ?_⟩
    rw [hm, List.any_eq_true]
    obtain ⟨kv, hkv, hfst⟩ := List.mem_map.mp hkey
    exact ⟨kv, hkv, by simp [hfst]⟩

theorem length_filter_ne_value (options : List AttrOption) (v : String)
    (hnd : (options.map fun o => o.value).Nodup)
    (hmem : v ∈ options.map fun o => o.value) :
    (options.filter fun o => o.value != v).length + 1 = options.length := by
  induction options with
  | nil => simp at hmem
  | cons o rest ih =>
    simp only [List.map_cons, List.nodup_cons] at hnd
    by_cases hov : o.value = v
    · have hvnotin : v ∉ rest.map fun o => o.value := hov ▸ hnd.1
      have hall : rest.filter (fun o => o.value != v) = rest := by
        rw [List.filter_eq_self]
        intro a ha
        simp only [bne_iff_ne, ne_eq]
        intro hav
        exact hvnotin (List.mem_map.mpr ⟨a, ha, hav⟩)
      simp [List.filter_cons, hov, hall]
    · have hcases : v = o.value ∨ ∃ a ∈ rest, a.value = v := by simpa using hmem
      have hmem' : v ∈ rest.map fun o => o.value := by
        rcases hcases with h | ⟨a, ha, hav⟩
        · exact absurd h.symm hov
        · exact List.mem_map.mpr ⟨a, ha, hav⟩
      have hlen := ih hnd.2 hmem'
      have hkeep : (o.value != v) = true := bne_iff_ne.mpr hov
      rw [List.filter_cons, if_pos hkeep]
      simp only [List.length_cons]
      omega

theorem foldl_recordSet_eq (l : List AttributeSchema) :
    ∀ m : List (String × List String),
      (∀ a ∈ l, ∀ kv ∈ m, kv.1 ≠ a.attribute_key) →
      ((l.map fun a => a.attribute_key).Nodup) →
      l.foldl
        (fun m a => recordSet m a.attribute_key (a.options.map fun o => o.value)) m
        = m ++ l.map fun a => (a.attribute_key, a.options.map fun o => o.value) := by
  induction l with
  | nil => intro m _ _; simp
  | cons a rest ih =>
    intro m hdisj hnd
    simp only [List.map_cons, List.nodup_cons] at hnd
    have hnotin : (m.any fun kv => kv.1 == a.attribute_key) = false := by
      rw [List.any_eq_false]
      intro kv hkv
      simp only [beq_iff_eq]
      exact hdisj a (by simp) kv hkv
    have hstep : recordSet m a.attribute_key (a.options.map fun o => o.value)
        = m ++ [(a.attribute_key, a.options.map fun o => o.value)] := by
      rw [recordSet, hnotin]
      simp
    have hdisj' : ∀ b ∈ rest,
        ∀ kv ∈ m ++ [(a.attribute_key, a.options.map fun o => o.value)],
          kv.1 ≠ b.attribute_key := by
      intro b hb kv hkv
      rcases List.mem_append.mp hkv with h | h
      · exact hdisj b (by simp [hb]) kv h
      · simp only [List.mem_singleton] at h
        subst h
        intro hcontr
        have hab : a.attribute_key = b.attribute_key := hcontr
        apply hnd.1
        rw [hab]
        exact List.mem_map.mpr ⟨b, hb, rfl⟩
    rw [List.foldl_cons, hstep,
      ih (m ++ [(a.attribute_key, a.options.map fun o => o.value)]) hdisj' hnd.2,
      List.append_assoc]
    rfl

theorem lookup_map_assoc (l : List AttributeSchema) (s : AttributeSchema)
    (hs : s ∈ l) (hnd : (l.map fun a => a.attribute_key).Nodup) :
    (l.map fun a => (a.attribute_key, a.options.map fun o => o.value)).lookup
        s.attribute_key
      = some (s.options.map fun o => o.value) := by
  induction l with
  | nil => simp at hs
  | cons a rest ih =>
    simp only [List.map_cons, List.nodup_cons] at hnd
    rcases List.mem_cons.mp hs with rfl | hmem
    · simp [List.lookup]
    · have hne : (s.attribute_key == a.attribute_key) = false := by
        simp only [beq_eq_false_iff_ne, ne_eq]
        intro hcontr
        apply hnd.1
        rw [← hcontr]
        exact List.mem_map.mpr ⟨s, hmem, rfl⟩
      simp only [List.map_cons, List.lookup, hne]
      exact ih hmem hnd.2

/-! ## Concrete stores used in witnesses and counterexamples -/

/-- Schema row builder: a select attribute with no extras. -/
def mkSchema (i pid : Nat) (key : String) (opts : List AttrOption)
    (so : Int) (ct : Nat) : AttributeSchema :=
  { id := i, product_id := pid, attribute_key := key, attribute_label := key,
    attribute_type := "select", options := opts, default_value := none,
    is_required := false, is_variant_defining := true, validation_rules := [],
    help_text := none, sort_order := so, created_at := ct }

/-- A healthy single-tenant store: brand `alice` owning catalog `cat1`
holding products 1 and 2. -/
def mkStore (schemas : List AttributeSchema) (variants : List ProductVariant) :
    Store :=
  { brands := [⟨1, "alice"⟩], catalogs := [⟨1, "cat1", 1⟩],
    products := [⟨1, "cat1"⟩, ⟨2, "cat1"⟩], schemas := schemas,
    variants := variants, nextId := 100, nextTime := 100, failure := none }

def sizeOpts : List AttrOption := [⟨"S", "Small"⟩, ⟨"M", "Medium"⟩, ⟨"L", "Large"⟩]

def colorCreate : CreateAttributeData :=
  { product_id := 1, attribute_key := "color", attribute_label := "Color",
    attribute_type := "select", options := none, default_value := none,
    is_required := none, is_variant_defining := none, validation_rules := none,
    help_text := none, sort_order := none }

/-- Store already holding one `color` schema on product 1. -/
def oneColorStore : Store := mkStore [mkSchema 11 1 "color" [] 0 1] []

/-- Store holding two schemas that both claim `(product 1, "color")`. -/
def dupKeyStore : Store :=
  mkStore [mkSchema 11 1 "color" [] 0 1, mkSchema 12 1 "color" [] 0 2] []

def c4Store : Store :=
  mkStore [mkSchema 31 1 "color" [] 0 1, mkSchema 32 1 "size" [] 0 2] []

/-- Update renaming schema 32 to the already-taken key `color` without
supplying `product_id`. -/
def c4Update : UpdateAttributeData :=
  { id := 32, product_id := none, attribute_key := some "color",
    attribute_label := none, attribute_type := none, options := none,
    default_value := none, is_required := none, is_variant_defining := none,
    validation_rules := none, help_text := none, sort_order := none }

/-- The same renaming with `product_id` supplied. -/
def c4UpdateWithPid : UpdateAttributeData := { c4Update with product_id := some 1 }

def c5Schema : AttributeSchema := mkSchema 41 1 "color" [⟨"red", "Red"⟩] 0 1

def c5Variant : ProductVariant := ⟨70, 1, some [("color", "red")]⟩

def c5Store : Store := mkStore [c5Schema] [c5Variant]

def c5StoreFree : Store := mkStore [c5Schema] [⟨70, 1, some [("finish", "matte")]⟩]

/-- Schema 51 carries two option entries with the same value `M`. -/
def c6DupStore : Store :=
  mkStore [mkSchema 51 1 "size" [⟨"M", "Medium"⟩, ⟨"M", "Med"⟩] 0 1] []

def c6Schema : AttributeSchema := mkSchema 52 1 "size" sizeOpts 0 1

def c6Variant : ProductVariant := ⟨71, 1, some [("size", "M")]⟩

def c6Store : Store := mkStore [c6Schema] [c6Variant]

def c7Store : Store := mkStore [mkSchema 61 1 "size" sizeOpts 0 1] []

def c8Store : Store :=
  mkStore [mkSchema 81 1 "b" [] 1 5, mkSchema 82 1 "a" [] 0 6,
    mkSchema 83 1 "c" [] 0 4] []

/-- A store whose every call fails. -/
def failStore : Store := { mkStore [] [] with failure := some "connection reset" }

/-- A non-variant-defining attribute. -/
def materialSchema : AttributeSchema :=
  { mkSchema 91 1 "material" [⟨"wood", "Wood"⟩, ⟨"metal", "Metal"⟩] 0 1 with
    is_variant_defining := false }

def c10Store : Store := mkStore [materialSchema, mkSchema 92 1 "size" sizeOpts 1 2] []

/-! ## Claim theorems: Attribute Schema Manager -/

/-- C3 (counterexample): with two schemas already claiming
`(product 1, "color")` — a state the update path can itself produce — a
third create of that very pair succeeds instead of failing with the
Conflict error: the uniqueness probe ends in `.single()`, which errors on
two rows, and the dropped error leaves `existingAttribute` null. -/
theorem createProductAttribute_conflict_cex :
    ((createProductAttribute dupKeyStore (some "alice") colorCreate).1).isOk = true
    ∧ (dupKeyStore.schemas.map fun s => (s.product_id, s.attribute_key))
        = [(1, "color"), (1, "color")] := by
  decide

/-- C3 (amended): for an authorized caller, creation fails with the
Conflict message whenever exactly one schema already holds the same
`(product_id, attribute_key)` pair — in particular whenever the store
satisfies the intended per-pair uniqueness invariant and the pair is
taken — and succeeds (appending the defaulted row) whenever no schema
holds the pair, in particular when the key exists only under other
products. -/
theorem createProductAttribute_key_conflict (st : Store) (u : Option String)
    (d : CreateAttributeData) (owner : String)
    (hO : lookupProductOwner st d.product_id = some owner)
    (hu : u = some owner) :
    ((∃ s0, st.schemas.filter (fun s =>
        s.product_id == d.product_id && s.attribute_key == d.attribute_key)
          = [s0]) →
      (createProductAttribute st u d).1
        = .err "Attribute key already exists for this product")
    ∧ ((∀ s ∈ st.schemas,
          ¬(s.product_id = d.product_id ∧ s.attribute_key = d.attribute_key)) →
        createProductAttribute st u d
          = (.ok (newSchemaRow st d),
             { st with schemas := st.schemas ++ [newSchemaRow st d],
                       nextId := st.nextId + 1, nextTime := st.nextTime + 1 })) := by
  have hfail : st.failure = none := failure_none_of_lookupProductOwner hO
  subst hu
  constructor
  · rintro ⟨s0, hs0⟩
    have hsingle : (dbSingle st (st.schemas.filter fun s =>
        s.product_id == d.product_id
          && s.attribute_key == d.attribute_key)).toOption = some s0 :=
      (dbSingle_toOption_eq_some_iff st _ s0).mpr ⟨hfail, hs0⟩
    simp [createProductAttribute, hO, authFails_self, hsingle]
  · intro hnone
    have hfilter : st.schemas.filter (fun s =>
        s.product_id == d.product_id && s.attribute_key == d.attribute_key)
          = [] := by
      refine List.filter_eq_nil_iff.mpr ?_
      intro s hs
      simp only [Bool.and_eq_true, beq_iff_eq, not_and]
      intro h1 h2
      exact hnone s hs ⟨h1, h2⟩
    simp [createProductAttribute, hO, authFails_self, hfilter, dbSingle, hfail,
      Except.toOption]

/-- C3 (witness): on a store with one `(product 1, "color")` schema, an
authorized duplicate create fails with the Conflict message. -/
theorem createProductAttribute_key_conflict_witness :
    (createProductAttribute oneColorStore (some "alice") colorCreate).1
      = .err "Attribute key already exists for this product" :=
  (createProductAttribute_key_conflict oneColorStore (some "alice") colorCreate
      "alice" (by decide) rfl).1 ⟨mkSchema 11 1 "color" [] 0 1, by decide⟩

/-- C4 (counterexample): renaming schema 32 (product 1, key `size`) to
`color` while product 1 already has a `color` schema succeeds when the
update payload omits `product_id`: the re-check filters on
`data.product_id!`, i.e. on nothing, so the collision is missed and the
store ends with `color` twice under product 1. -/
theorem updateProductAttribute_key_uniqueness_cex :
    ((updateProductAttribute c4Store (some "alice") c4Update).1).isOk = true
    ∧ c4Update.attribute_key = some "color"
    ∧ (c4Store.schemas.map fun s => (s.product_id, s.attribute_key))
        = [(1, "color"), (1, "size")]
    ∧ ((updateProductAttribute c4Store (some "alice") c4Update).2.schemas.map
        fun s => (s.product_id, s.attribute_key))
        = [(1, "color"), (1, "color")] := by
  decide

/-- C4 (amended): when a non-empty `attribute_key` differing from the
current one is supplied, the uniqueness re-check runs against the
*supplied* `product_id` only, excluding the record being updated, and
fails with the Conflict message when exactly one colliding row exists
there; when `product_id` is not supplied together with the key change, no
check is performed and the update succeeds even if the existing product
has a colliding key. -/
theorem updateProductAttribute_key_uniqueness (st : Store) (u : Option String)
    (d : UpdateAttributeData) (s : AttributeSchema) (p : Product)
    (owner : String) (k : String)
    (hL : lookupSchemaOwner st d.id = some (s, p, owner))
    (hu : u = some owner)
    (hk : d.attribute_key = some k) (hk0 : k ≠ "")
    (hkne : k ≠ s.attribute_key) :
    (∀ pid s0, d.product_id = some pid →
        st.schemas.filter (fun x =>
          x.product_id == pid && x.attribute_key == k && x.id != d.id) = [s0] →
        (updateProductAttribute st u d).1
          = .err "Attribute key already exists for this product")
    ∧ (d.product_id = none →
        (updateProductAttribute st u d).1 = .ok (applyUpdate s d)) := by
  have hfail : st.failure = none := failure_none_of_lookupSchemaOwner hL
  subst hu
  have hcond : (k != "" && k != s.attribute_key) = true := by
    simp [bne_iff_ne, hk0, hkne]
  constructor
  · intro pid s0 hpid hs0
    have hsingle : (dbSingle st (st.schemas.filter fun x =>
        x.product_id == pid && x.attribute_key == k
          && x.id != d.id)).toOption = some s0 :=
      (dbSingle_toOption_eq_some_iff st _ s0).mpr ⟨hfail, hs0⟩
    have hconf : keyChangeConflict st s d = true := by
      simp only [keyChangeConflict, hk, hcond, if_true, hpid, hsingle,
        Option.isSome_some]
    simp [updateProductAttribute, hL, authFails_self, hconf]
  · intro hpid
    have hconf : keyChangeConflict st s d = false := by
      simp only [keyChangeConflict, hk, hcond, if_true, hpid]
    simp [updateProductAttribute, hL, authFails_self, hconf, hfail]

/-- C4 (witness): the same rename as the counterexample but with
`product_id` supplied does hit the Conflict error. -/
theorem updateProductAttribute_key_uniqueness_witness :
    (updateProductAttribute c4Store (some "alice") c4UpdateWithPid).1
      = .err "Attribute key already exists for this product" :=
  (updateProductAttribute_key_uniqueness c4Store (some "alice") c4UpdateWithPid
      (mkSchema 32 1 "size" [] 0 2) ⟨1, "cat1"⟩ "alice" "color"
      (by decide) rfl (by decide) (by decide) (by decide)).1
    1 (mkSchema 31 1 "color" [] 0 1) rfl (by decide)

/-- C5: for an authorized caller on a resolvable schema, deletion fails
with the in-use Conflict message — leaving the store untouched — exactly
when some variant of the same product carries the schema's
`attribute_key` in its attribute-value map; once no variant does, the
deletion succeeds and removes the row. -/
theorem deleteProductAttribute_in_use_guard (st : Store) (u : Option String)
    (attrId : Nat) (s : AttributeSchema) (p : Product) (owner : String)
    (hL : lookupSchemaOwner st attrId = some (s, p, owner))
    (hu : u = some owner) :
    ((∃ v ∈ st.variants, v.product_id = p.id ∧
        ∃ m, v.attributes = some m ∧ s.attribute_key ∈ m.map Prod.fst) →
      deleteProductAttribute st u attrId
        = (.err "Cannot delete attribute that is used by variants", st))
    ∧ ((∀ v ∈ st.variants, v.product_id = p.id →
          ∀ m, v.attributes = some m → s.attribute_key ∉ m.map Prod.fst) →
        (deleteProductAttribute st u attrId).1 = .ok ()
        ∧ (deleteProductAttribute st u attrId).2.schemas
            = st.schemas.filter fun x => !(x.id == attrId)) := by
  have hfail : st.failure = none := failure_none_of_lookupSchemaOwner hL
  subst hu
  constructor
  · rintro ⟨v, hv, hpid, m, hm, hkey⟩
    have hinuse : attributeInUse
        (st.variants.filter fun v => v.product_id == p.id)
        s.attribute_key = true :=
      (attributeInUse_iff _ _).mpr
        ⟨v, List.mem_filter.mpr ⟨hv, by simp [hpid]⟩, m, hm, hkey⟩
    simp [deleteProductAttribute, hL, authFails_self, dbSelect, hfail,
      Except.toOption, hinuse]
  · intro hnone
    have hinuse : attributeInUse
        (st.variants.filter fun v => v.product_id == p.id)
        s.attribute_key = false := by
      rw [Bool.eq_false_iff]
      intro hcontr
      obtain ⟨v, hv, m, hm, hkey⟩ := (attributeInUse_iff _ _).mp hcontr
      obtain ⟨hv', hpid⟩ := List.mem_filter.mp hv
      exact hnone v hv' (by simpa using hpid) m hm hkey
    simp [deleteProductAttribute, hL, authFails_self, dbSelect, hfail,
      Except.toOption, hinuse]

/-- C5 (witness): deleting the `color` schema while variant 70 carries
`color = red` fails with the in-use Conflict message. -/
theorem deleteProductAttribute_in_use_guard_witness :
    deleteProductAttribute c5Store (some "alice") 41
      = (.err "Cannot delete attribute that is used by variants", c5Store) :=
  (deleteProductAttribute_in_use_guard c5Store (some "alice") 41 c5Schema
      ⟨1, "cat1"⟩ "alice" (by decide) rfl).1
    ⟨c5Variant, by decide, by decide, [("color", "red")], rfl, by decide⟩

/-- C6 (counterexample): schema 51 carries two option entries with value
`M` (the create path accepts such an options array unchecked); removing
`M` succeeds but shrinks `options` by two entries, not exactly one, since
the code filters out every matching entry. -/
theorem removeAttributeOption_guards_cex :
    ((removeAttributeOption c6DupStore (some "alice") 51 "M").1).isOk = true
    ∧ (c6DupStore.schemas.map fun s => s.options.length) = [2]
    ∧ ((removeAttributeOption c6DupStore (some "alice") 51 "M").2.schemas.map
        fun s => s.options.length) = [0] := by
  decide

/-- C6 (amended): with the store healthy, removing an option fails with
`Attribute not found` when no schema has the id, with `Option not found`
when no option entry carries the value, and with the in-use Conflict
message when some variant of the product has the attribute's key set to
the value; otherwise it succeeds, replacing `options` by the entries whose
value differs (order preserved) — exactly one entry fewer whenever the
schema's option values are duplicate-free, as the intended invariant
guarantees. -/
theorem removeAttributeOption_guards (st : Store) (u : Option String)
    (attrId : Nat) (optVal : String) (hfail : st.failure = none) :
    (st.schemas.filter (fun x => x.id == attrId) = [] →
      removeAttributeOption st u attrId optVal = (.err "Attribute not found", st))
    ∧ ∀ s, st.schemas.filter (fun x => x.id == attrId) = [s] →
      ((optVal ∉ s.options.map (fun o => o.value) →
         removeAttributeOption st u attrId optVal = (.err "Option not found", st))
       ∧ (optVal ∈ s.options.map (fun o => o.value) →
          ((∃ v ∈ st.variants, v.product_id = s.product_id ∧
              ∃ m, v.attributes = some m ∧
                m.lookup s.attribute_key = some optVal) →
            removeAttributeOption st u attrId optVal
              = (.err "Cannot remove option that is used by variants", st))
          ∧ ((∀ v ∈ st.variants, v.product_id = s.product_id →
                ∀ m, v.attributes = some m →
                  m.lookup s.attribute_key ≠ some optVal) →
              removeAttributeOption st u attrId optVal
                = (.ok (), { st with schemas := st.schemas.map fun x =>
                    if x.id == attrId then
                      { x with options :=
                          s.options.filter fun o => o.value != optVal }
                    else x })
              ∧ ((s.options.map fun o => o.value).Nodup →
                  (s.options.filter fun o => o.value != optVal).length + 1
                    = s.options.length)))) := by
  constructor
  · intro hempty
    have herr : dbSingle st (st.schemas.filter fun x => x.id == attrId)
        = .error "JSON object requested, multiple (or no) rows returned" := by
      rw [hempty]; simp [dbSingle, hfail]
    simp [removeAttributeOption, herr]
  · intro s hs
    have hsingle : dbSingle st (st.schemas.filter fun x => x.id == attrId)
        = .ok s := by
      rw [hs]; simp [dbSingle, hfail]
    constructor
    · intro hnot
      have heq : s.options.filter (fun o => o.value != optVal) = s.options := by
        rw [List.filter_eq_self]
        intro o ho
        simp only [bne_iff_ne, ne_eq]
        intro hoe
        exact hnot (List.mem_map.mpr ⟨o, ho, hoe⟩)
      simp [removeAttributeOption, hsingle, heq]
    · intro hmem
      have hlt : (s.options.filter fun o => o.value != optVal).length
          < s.options.length := by
        rw [List.length_filter_lt_length_iff_exists]
        obtain ⟨o, ho, hov⟩ := List.mem_map.mp hmem
        exact ⟨o, ho, by simp [hov]⟩
      have hne : ((s.options.filter fun o => o.value != optVal).length
          == s.options.length) = false := by
        simp only [beq_eq_false_iff_ne, ne_eq]
        omega
      constructor
      · rintro ⟨v, hv, hpid, m, hm, hlook⟩
        have hused : (st.variants.filter fun v =>
            v.product_id == s.product_id).any
              (fun v => optionUsed v s.attribute_key optVal) = true := by
          rw [List.any_eq_true]
          refine ⟨v, List.mem_filter.mpr ⟨hv, by simp [hpid]⟩, ?_⟩
          simp [optionUsed, hm, hlook]
        simp [removeAttributeOption, hsingle, hne, dbSelect, hfail,
          Except.toOption, hused]
      · intro hnone
        have hused : (st.variants.filter fun v =>
            v.product_id == s.product_id).any
              (fun v => optionUsed v s.attribute_key optVal) = false := by
          rw [List.any_eq_false]
          intro v hv
          obtain ⟨hv', hpid⟩ := List.mem_filter.mp hv
          rcases hattrs : v.attributes with _ | m
          · simp [optionUsed, hattrs]
          · have := hnone v hv' (by simpa using hpid) m hattrs
            simp [optionUsed, hattrs, this]
        constructor
        · simp [removeAttributeOption, hsingle, hne, dbSelect, hfail,
            Except.toOption, hused]
        · intro hnd
          exact length_filter_ne_value s.options optVal hnd hmem

/-- C6 (witness): with options `{S, M, L}` and a variant carrying
`size = M`, removing `M` fails with the in-use Conflict message. -/
theorem removeAttributeOption_guards_witness :
    removeAttributeOption c6Store (some "alice") 52 "M"
      = (.err "Cannot remove option that is used by variants", c6Store) :=
  (((removeAttributeOption_guards c6Store (some "alice") 52 "M" rfl).2
      c6Schema (by decide)).2 (by decide)).1
    ⟨c6Variant, by decide, by decide, [("size", "M")], rfl, by decide⟩

/-- C7 (counterexample): `addAttributeOption` performs no authorization
step at all, so a caller who is not the owning brand's user succeeds in
mutating the schema; and for `updateProductAttribute` the returned error
does depend on record existence: a non-owner gets `Unauthorized` on an
existing schema (id 61) but `Attribute not found or access denied` on a
missing one (id 999), so existence is distinguishable. -/
theorem mutating_auth_cex :
    ((addAttributeOption c7Store (some "mallory") 61 ⟨"XL", "Extra Large"⟩).1).isOk
        = true
    ∧ (c7Store.brands.map fun b => b.user_id) = ["alice"]
    ∧ "mallory" ≠ "alice"
    ∧ (updateProductAttribute c7Store (some "mallory")
        { c4Update with id := 61 }).1 = .err "Unauthorized"
    ∧ (updateProductAttribute c7Store (some "mallory")
        { c4Update with id := 999 }).1
          = .err "Attribute not found or access denied"
    ∧ ("Unauthorized" : String) ≠ "Attribute not found or access denied" := by
  decide

/-- C7 (amended): create, update and delete fail with `Unauthorized` when
the target resolves through its ownership chain and the caller's identity
is missing or differs from the owning user; when the target does not
resolve they fail with the access-denied/not-found message instead (so the
two cases are distinguishable); bulk reorder, add option and remove
option never consult the caller at all — their results are identical for
every ambient session. -/
theorem mutating_auth_behavior :
    (∀ (st : Store) (u : Option String) (d : CreateAttributeData)
        (owner : String),
        lookupProductOwner st d.product_id = some owner →
        (∀ uid, u = some uid → uid ≠ owner) →
        (createProductAttribute st u d).1 = .err "Unauthorized")
    ∧ (∀ (st : Store) (u : Option String) (d : UpdateAttributeData)
        (s : AttributeSchema) (p : Product) (owner : String),
        lookupSchemaOwner st d.id = some (s, p, owner) →
        (∀ uid, u = some uid → uid ≠ owner) →
        (updateProductAttribute st u d).1 = .err "Unauthorized")
    ∧ (∀ (st : Store) (u : Option String) (i : Nat)
        (s : AttributeSchema) (p : Product) (owner : String),
        lookupSchemaOwner st i = some (s, p, owner) →
        (∀ uid, u = some uid → uid ≠ owner) →
        (deleteProductAttribute st u i).1 = .err "Unauthorized")
    ∧ (∀ (st : Store) (u : Option String) (d : CreateAttributeData),
        lookupProductOwner st d.product_id = none →
        (createProductAttribute st u d).1
          = .err "Product not found or access denied")
    ∧ (∀ (st : Store) (u : Option String) (d : UpdateAttributeData),
        lookupSchemaOwner st d.id = none →
        (updateProductAttribute st u d).1
          = .err "Attribute not found or access denied")
    ∧ (∀ (st : Store) (u : Option String) (i : Nat),
        lookupSchemaOwner st i = none →
        (deleteProductAttribute st u i).1
          = .err "Attribute not found or access denied")
    ∧ (∀ (st : Store) (u u' : Option String) (os : List (Nat × Int)),
        updateAttributeOrder st u os = updateAttributeOrder st u' os)
    ∧ (∀ (st : Store) (u u' : Option String) (i : Nat) (o : AttrOption),
        addAttributeOption st u i o = addAttributeOption st u' i o)
    ∧ (∀ (st : Store) (u u' : Option String) (i : Nat) (v : String),
        removeAttributeOption st u i v = removeAttributeOption st u' i v) := by
  refine ⟨?_, ?_, ?_, ?_, ?_, ?_, ?_, ?_, ?_⟩
  · intro st u d owner hO hne
    simp [createProductAttribute, hO, authFails_of_not_owner hne]
  · intro st u d s p owner hL hne
    simp [updateProductAttribute, hL, authFails_of_not_owner hne]
  · intro st u i s p owner hL hne
    simp [deleteProductAttribute, hL, authFails_of_not_owner hne]
  · intro st u d hO
    simp [createProductAttribute, hO]
  · intro st u d hL
    simp [updateProductAttribute, hL]
  · intro st u i hL
    simp [deleteProductAttribute, hL]
  · intro st u u' os
    rfl
  · intro st u u' i o
    rfl
  · intro st u u' i v
    rfl

/-- C7 (witness): the non-owner `mallory` gets `Unauthorized` from a
create against `alice`'s product. -/
theorem mutating_auth_behavior_witness :
    (createProductAttribute c7Store (some "mallory") colorCreate).1
      = .err "Unauthorized" :=
  mutating_auth_behavior.1 c7Store (some "mallory") colorCreate "alice"
    (by decide) (fun uid h => by cases h; decide)

/-- C8: `getProductAttributes` returns exactly the product's schema rows
(as a permutation of the store's filter) sorted by `sort_order` ascending
with ties broken by `created_at` ascending, and returns the empty
sequence — never an error — both when the product has no attributes and
when the underlying lookup fails. -/
theorem getProductAttributes_ordering :
    ∀ (st : Store) (pid : Nat),
      (∀ e, st.failure = some e → getProductAttributes st pid = [])
      ∧ (st.failure = none →
          (getProductAttributes st pid).Perm
              (st.schemas.filter fun s => s.product_id == pid)
          ∧ (getProductAttributes st pid).Pairwise (fun a b =>
              a.sort_order < b.sort_order
                ∨ (a.sort_order = b.sort_order ∧ a.created_at ≤ b.created_at))
          ∧ ((∀ s ∈ st.schemas, s.product_id ≠ pid) →
              getProductAttributes st pid = [])) := by
  intro st pid
  constructor
  · intro e he
    simp [getProductAttributes, dbSelect, he]
  · intro hfail
    have hget : getProductAttributes st pid
        = (st.schemas.filter fun s => s.product_id == pid).insertionSort
            attrLeP := by
      simp [getProductAttributes, dbSelect, hfail]
    refine ⟨?_, ?_, ?_⟩
    · rw [hget]
      exact List.perm_insertionSort attrLeP _
    · rw [hget]
      exact List.sorted_insertionSort attrLeP _
    · intro hnone
      rw [hget]
      have hnil : (st.schemas.filter fun s => s.product_id == pid) = [] := by
        refine List.filter_eq_nil_iff.mpr ?_
        intro s hs
        simpa using hnone s hs
      rw [hnil]
      rfl

/-- C8 (witness): on a store holding rows with sort orders 1, 0, 0 and
creation times 5, 6, 4, the returned sequence is a sorted permutation of
the product's rows. -/
theorem getProductAttributes_ordering_witness :
    (getProductAttributes c8Store 1).Perm
        (c8Store.schemas.filter fun s => s.product_id == 1)
    ∧ (getProductAttributes c8Store 1).Pairwise (fun a b =>
        a.sort_order < b.sort_order
          ∨ (a.sort_order = b.sort_order ∧ a.created_at ≤ b.created_at)) :=
  ⟨((getProductAttributes_ordering c8Store 1).2 rfl).1,
   ((getProductAttributes_ordering c8Store 1).2 rfl).2.1⟩

/-- C9: with a store failure injected, every mutating operation still
returns the `{success:false, error}` envelope (with the boundary's
message), and the read operations degrade to empty/null results rather
than an error: `List` and `GetCombinableOptions` to the empty sequence,
`GetById` to null.  (Thrown failures are embedded as `Except` errors; the
operations are total functions into the envelope, mirroring the
catch-all boundary of every action.) -/
theorem envelope_on_store_failure :
    ∀ (st : Store) (e : String), st.failure = some e →
      ∀ (u : Option String) (d : CreateAttributeData) (du : UpdateAttributeData)
        (i : Nat) (os : List (Nat × Int)) (opt : AttrOption) (v : String)
        (pid : Nat),
      (createProductAttribute st u d).1
          = .err "Product not found or access denied"
      ∧ (updateProductAttribute st u du).1
          = .err "Attribute not found or access denied"
      ∧ (deleteProductAttribute st u i).1
          = .err "Attribute not found or access denied"
      ∧ (os ≠ [] → (updateAttributeOrder st u os).1
          = .err "Failed to update attribute order")
      ∧ (addAttributeOption st u i opt).1 = .err "Attribute not found"
      ∧ (removeAttributeOption st u i v).1 = .err "Attribute not found"
      ∧ getProductAttributes st pid = []
      ∧ getProductAttributeById st i = none
      ∧ getAttributeCombinations st pid = [] := by
  intro st e he u d du i os opt v pid
  have hlookP : lookupProductOwner st d.product_id = none := by
    simp [lookupProductOwner, dbSingle, he, Except.toOption]
  have hlookS : ∀ j, lookupSchemaOwner st j = none := by
    intro j
    simp [lookupSchemaOwner, dbSingle, he, Except.toOption]
  have hsingleErr : ∀ rows : List AttributeSchema, dbSingle st rows = .error e := by
    intro rows
    simp [dbSingle, he]
  refine ⟨?_, ?_, ?_, ?_, ?_, ?_, ?_, ?_, ?_⟩
  · simp [createProductAttribute, hlookP]
  · simp [updateProductAttribute, hlookS]
  · simp [deleteProductAttribute, hlookS]
  · intro hos
    have hemp : os.isEmpty = false := by
      cases os with
      | nil => exact absurd rfl hos
      | cons a l => rfl
    simp [updateAttributeOrder, he, hemp]
  · simp [addAttributeOption, hsingleErr]
  · simp [removeAttributeOption, hsingleErr]
  · simp [getProductAttributes, dbSelect, he]
  · simp [getProductAttributeById, dbSingle, he, Except.toOption]
  · simp [getAttributeCombinations, getProductAttributes, dbSelect, he]

/-- C9 (witness): on the failing store, a create returns the error
envelope and `GetById` returns null. -/
theorem envelope_on_store_failure_witness :
    (createProductAttribute failStore (some "alice") colorCreate).1
        = .err "Product not found or access denied"
    ∧ getProductAttributeById failStore 1 = none :=
  ⟨(envelope_on_store_failure failStore "connection reset" rfl (some "alice")
      colorCreate c4Update 1 [(1, 2)] ⟨"a", "b"⟩ "x" 1).1,
   (envelope_on_store_failure failStore "connection reset" rfl (some "alice")
      colorCreate c4Update 1 [(1, 2)] ⟨"a", "b"⟩ "x" 1).2.2.2.2.2.2.2.1⟩

/-- C10: the key-to-values mapping of `getAttributeCombinations` covers
every attribute schema of the product — `s` below is arbitrary, its
`is_variant_defining` flag unconstrained and in particular possibly
false — mapping its `attribute_key` to its option values in stored order;
consequently every generated combination assigns a value to that key as
well. -/
theorem getAttributeCombinations_all_attributes :
    ∀ (st : Store) (pid : Nat) (s : AttributeSchema),
      st.failure = none →
      s ∈ st.schemas → s.product_id = pid →
      ((st.schemas.filter fun x => x.product_id == pid).map
          fun x => x.attribute_key).Nodup →
      (getAttributeCombinations st pid).lookup s.attribute_key
          = some (s.options.map fun o => o.value)
      ∧ ∀ c ∈ generateVariantCombinations (getAttributeCombinations st pid),
          s.attribute_key ∈ c.map Prod.fst := by
  intro st pid s hfail hmem hpid hnd
  have hget : getProductAttributes st pid
      = (st.schemas.filter fun x => x.product_id == pid).insertionSort
          attrLeP := by
    simp [getProductAttributes, dbSelect, hfail]
  have hperm := List.perm_insertionSort attrLeP
    (st.schemas.filter fun x => x.product_id == pid)
  have hnd' : (((st.schemas.filter fun x => x.product_id == pid).insertionSort
      attrLeP).map fun x => x.attribute_key).Nodup := by
    refine (List.Perm.nodup_iff ?_).mpr hnd
    exact hperm.map _
  have hsmem : s ∈ (st.schemas.filter fun x => x.product_id == pid).insertionSort
      attrLeP := by
    rw [hperm.mem_iff]
    exact List.mem_filter.mpr ⟨hmem, by simp [hpid]⟩
  have hfold : getAttributeCombinations st pid
      = ((st.schemas.filter fun x => x.product_id == pid).insertionSort
          attrLeP).map
            fun a => (a.attribute_key, a.options.map fun o => o.value) := by
    rw [getAttributeCombinations, hget]
    have := foldl_recordSet_eq
      ((st.schemas.filter fun x => x.product_id == pid).insertionSort attrLeP)
      [] (by intro a _ kv hkv; simp at hkv) hnd'
    simpa using this
  constructor
  · rw [hfold]
    exact lookup_map_assoc _ s hsmem hnd'
  · intro c hc
    rw [generateVariantCombinations] at hc
    have hkeys := keys_of_mem_generateCombination _ [] c hc
    rw [hkeys]
    simp only [List.map_nil, List.nil_append]
    rw [hfold]
    simp only [List.map_map]
    exact List.mem_map.mpr ⟨s, hsmem, rfl⟩

/-- C10 (witness): the non-variant-defining `material` attribute of
product 1 still contributes its option values to the mapping. -/
theorem getAttributeCombinations_all_attributes_witness :
    (getAttributeCombinations c10Store 1).lookup "material"
        = some ["wood", "metal"]
    ∧ materialSchema.is_variant_defining = false :=
  ⟨(getAttributeCombinations_all_attributes c10Store 1 materialSchema rfl
      (by decide) rfl (by decide)).1,
   by decide⟩
